import Mathlib

/-!
Verification of the DeckPilot backend streaming relay (`backend/app.py`).

This file gives a shallow embedding of the parts of the program the claims
are about: the line decoder (`_safe_decode`), the URL extractor and scorer
(`URL_RE` / `_collect_urls_from_text` / `_score_url` / `_pick_best_url`),
the handshake parser (`_endpoint_and_context_from_data`), the query builder
(`build_query`), and the per-request relay generator (`event_stream` with
its inner `flush_and_emit`).

Modelling conventions:
* Python byte strings are `List Nat` (each entry one byte).
* Python text strings are Lean `String`; Python whitespace and case
  operations are modelled over ASCII (the relevant characters in the
  program's protocols are all ASCII).
* Python `dict`s are association lists with insertion-order update
  semantics (`pyDictSet`).
* `json.loads` is modelled by a small recursive-descent parser covering the
  JSON subset the upstream protocol uses (objects, arrays, strings with the
  common escapes, integers, booleans, null); `\uXXXX` escapes and floats
  make the modelled parser fail where CPython would succeed, which only
  widens the (claim-irrelevant) "payload is not JSON" branch.
* Code that can raise a Python exception is modelled with `Except Unit` or
  an explicit exception flag; `requests` I/O is an oracle supplied as part
  of the modelled upstream input.
-/

/-! ## Python-style string primitives -/

/-- Python whitespace (`str.strip` / `str.lstrip` / regex `\s`), restricted
to the ASCII range: space, tab, newline, carriage return, vertical tab,
form feed. -/
def isPyWs (c : Char) : Bool :=
  c = ' ' || c = '\t' || c = '\n' || c = '\r' || c = Char.ofNat 11 || c = Char.ofNat 12

/-- Strip trailing then leading whitespace from a character list
(both-ends strip, as Python `str.strip()`). -/
def pyStripL (l : List Char) : List Char :=
  ((l.reverse.dropWhile isPyWs).reverse).dropWhile isPyWs

/-- Python `str.strip()`. -/
def pyStrip (s : String) : String := ⟨pyStripL s.data⟩

/-- Python `str.lstrip()`. -/
def pyLstrip (s : String) : String := ⟨s.data.dropWhile isPyWs⟩

/-- ASCII lower-casing of one character (Python `str.lower()` on ASCII). -/
def asciiLowerChar (c : Char) : Char :=
  if 'A' ≤ c && c ≤ 'Z' then Char.ofNat (c.toNat + 32) else c

/-- Python `str.lower()` (ASCII model). -/
def asciiLower (s : String) : String := ⟨s.data.map asciiLowerChar⟩

/-- Boolean list-prefix test (used to model Python `str.startswith`). -/
def lpre : List Char → List Char → Bool
  | [], _ => true
  | _ :: _, [] => false
  | a :: as, b :: bs => a == b && lpre as bs

/-- Python `s.startswith(p)`. -/
def pyStartsWith (s p : String) : Bool := lpre p.data s.data

/-- Python `s.endswith(p)`. -/
def pyEndsWith (s p : String) : Bool := p.data.isSuffixOf s.data

/-- Contiguous-sublist (substring) test on character lists. -/
def isInfixCharL (sub : List Char) : List Char → Bool
  | [] => sub.isEmpty
  | c :: rest => lpre sub (c :: rest) || isInfixCharL sub rest

/-- Python `sub in s` for strings (substring containment). -/
def pyIn (sub s : String) : Bool := isInfixCharL sub.data s.data

/-- Everything after the first `:` of a line; models `ln.split(":", 1)[1]`
(only used on lines guaranteed to contain a colon). -/
def afterColonL : List Char → List Char
  | [] => []
  | c :: rest => if c = ':' then rest else afterColonL rest

/-- Python `ln.split(":", 1)[1]` for lines that contain a colon. -/
def afterFirstColon (s : String) : String := ⟨afterColonL s.data⟩

/-- Left-to-right, non-overlapping replacement of a pattern in a character
list (Python `str.replace`), fuelled by the input length. -/
def pyReplaceL : Nat → List Char → List Char → List Char → List Char
  | 0, s, _, _ => s
  | _ + 1, [], _, _ => []
  | fuel + 1, c :: rest, pat, rep =>
    if !pat.isEmpty && lpre pat (c :: rest) then
      rep ++ pyReplaceL fuel ((c :: rest).drop pat.length) pat rep
    else
      c :: pyReplaceL fuel rest pat rep

/-- Python `s.replace(pat, rep)` (for non-empty `pat`). -/
def pyReplace (s pat rep : String) : String :=
  ⟨pyReplaceL s.data.length s.data pat.data rep.data⟩

/-- Order-preserving deduplication; models the effect of `list(set(...))`
on the match list (CPython's set iteration order is unspecified; the
first-occurrence order is one admissible instance, and every claim proved
below is insensitive to the order chosen). -/
def dedupAux : List String → List String → List String
  | _, [] => []
  | seen, x :: xs => if seen.contains x then dedupAux seen xs else x :: dedupAux (x :: seen) xs

/-! ## URL extraction and scoring (`URL_RE`, `_collect_urls_from_text`,
`_score_url`, `_pick_best_url`) -/

/-- Characters allowed in the body of a `URL_RE` match:
`[^\s"'<>]` (ASCII model of `\s`). -/
def urlChar (c : Char) : Bool :=
  !(isPyWs c || c = Char.ofNat 34 || c = Char.ofNat 39 || c = '<' || c = '>')

/-- Case-insensitive single-character match. -/
def lowEq (c a : Char) : Bool := asciiLowerChar c == a

/-- Match the regex portion `https?://` (case-insensitive) at the head of
the list; returns the matched scheme characters and the remainder. -/
def matchScheme : List Char → Option (List Char × List Char)
  | c1 :: c2 :: c3 :: c4 :: rest =>
    if lowEq c1 'h' && lowEq c2 't' && lowEq c3 't' && lowEq c4 'p' then
      match rest with
      | c5 :: c6 :: c7 :: c8 :: rest2 =>
        if lowEq c5 's' && c6 = ':' && c7 = '/' && c8 = '/' then
          some ([c1, c2, c3, c4, c5, c6, c7, c8], rest2)
        else if c5 = ':' && c6 = '/' && c7 = '/' then
          some ([c1, c2, c3, c4, c5, c6, c7], c8 :: rest2)
        else none
      | [c5, c6, c7] =>
        if c5 = ':' && c6 = '/' && c7 = '/' then
          some ([c1, c2, c3, c4, c5, c6, c7], [])
        else none
      | _ => none
    else none
  | _ => none

/-- Scan for all matches of `URL_RE = https?://[^\s"'<>]+` (case-insensitive,
leftmost, non-overlapping), as `re.findall` produces them. -/
def findUrlsAux : Nat → List Char → List String
  | 0, _ => []
  | _ + 1, [] => []
  | fuel + 1, c :: rest =>
    match matchScheme (c :: rest) with
    | some (sch, after) =>
      let body := after.takeWhile urlChar
      if body.isEmpty then findUrlsAux fuel rest
      else ⟨sch ++ body⟩ :: findUrlsAux fuel (after.drop body.length)
    | none => findUrlsAux fuel rest

/-- All `URL_RE` matches in a text. -/
def findUrls (s : String) : List String := findUrlsAux s.data.length s.data

/-- `_collect_urls_from_text`: `list(set(URL_RE.findall(text)))`. -/
def _collect_urls_from_text (text : String) : List String :=
  dedupAux [] (findUrls text)

/-- `PREFERRED_EXTS` with the default value of `DECKPILOT_PREFERRED_EXTS`
(`"pptx,docx,xlsx,pdf,zip"`, lower-cased and comma-split). -/
def PREFERRED_EXTS : List String := ["pptx", "docx", "xlsx", "pdf", "zip"]

/-- `_score_url`: base 10; `+ (100 - i)` for the 1-based preferred extension
the lowered URL ends with; `+15` for download/export/file; `+10` for
signature=/token=. -/
def _score_url (u : String) : Nat :=
  let s := asciiLower u
  let score := 10
  let score := (PREFERRED_EXTS.enumFrom 1).foldl
    (fun sc p => if pyEndsWith s ("." ++ p.2) then sc + (100 - p.1) else sc) score
  let score := if pyIn "download" s || pyIn "export" s || pyIn "file" s then score + 15 else score
  let score := if pyIn "signature=" s || pyIn "token=" s then score + 10 else score
  score

/-- `_pick_best_url`: `sorted(urls, key=_score_url, reverse=True)[0]` for a
non-empty list (a stable descending sort's head is the first element of
maximal score), `None` otherwise. -/
def _pick_best_url (urls : List String) : Option String :=
  match urls with
  | [] => none
  | x :: xs => some (xs.foldl (fun best u => if _score_url u > _score_url best then u else best) x)

/-! ## JSON values and a model of `json.loads` / `json.dumps` -/

/-- Character constants written via code points to keep literals simple. -/
def qChar : Char := Char.ofNat 34

def bslashChar : Char := Char.ofNat 92

def squoteChar : Char := Char.ofNat 39

def lbraceChar : Char := Char.ofNat 123

def rbraceChar : Char := Char.ofNat 125

def lbrackChar : Char := Char.ofNat 91

def rbrackChar : Char := Char.ofNat 93

/-- The one-character string `"{"`. -/
def lbraceStr : String := ⟨[lbraceChar]⟩

/-- A JSON value as produced by `json.loads` (numbers restricted to
integers; see the file comment). -/
inductive Json where
  | null
  | bool (b : Bool)
  | num (n : Int)
  | str (s : String)
  | arr (xs : List Json)
  | obj (fields : List (String × Json))

/-- Python `dict` lookup (`d.get(k)` / `k in d`): the parser keeps keys
unique, so first match is the match. -/
def jGet (fields : List (String × Json)) (k : String) : Option Json :=
  match fields with
  | [] => none
  | (k2, v) :: rest => if k2 = k then some v else jGet rest k

/-- Python `d[k] = v`: update in place if the key exists, else append. -/
def pyDictSet (fields : List (String × Json)) (k : String) (v : Json) :
    List (String × Json) :=
  match fields with
  | [] => [(k, v)]
  | (k2, v2) :: rest => if k2 = k then (k2, v) :: rest else (k2, v2) :: pyDictSet rest k v

/-- Python `base.update(upd)`. -/
def pyDictUpdate (base upd : List (String × Json)) : List (String × Json) :=
  upd.foldl (fun b p => pyDictSet b p.1 p.2) base

/-- Python truthiness of a JSON value. -/
def jsonTruthy : Json → Bool
  | .null => false
  | .bool b => b
  | .num n => n != 0
  | .str s => s ≠ ""
  | .arr xs => !xs.isEmpty
  | .obj fs => !fs.isEmpty

/-- Python truthiness of an optional JSON value (`none` = Python `None`). -/
def optTruthy : Option Json → Bool
  | none => false
  | some j => jsonTruthy j

/-- JSON inter-token whitespace. -/
def jsonWs (c : Char) : Bool := c = ' ' || c = '\t' || c = '\n' || c = '\r'

/-- Skip JSON whitespace. -/
def skipWs (l : List Char) : List Char := l.dropWhile jsonWs

/-- Parse the body of a JSON string after the opening quote; returns the
content and the remainder after the closing quote. Handles the common
escapes; `\uXXXX` is not modelled (such input makes the modelled parser
fail, see the file comment). -/
def parseJStr : Nat → List Char → Option (String × List Char)
  | 0, _ => none
  | _ + 1, [] => none
  | fuel + 1, c :: rest =>
    if c = qChar then some ("", rest)
    else if c = bslashChar then
      match rest with
      | [] => none
      | e :: rest2 =>
        let dec : Option Char :=
          if e = qChar then some qChar
          else if e = bslashChar then some bslashChar
          else if e = '/' then some '/'
          else if e = 'n' then some '\n'
          else if e = 't' then some '\t'
          else if e = 'r' then some '\r'
          else if e = 'b' then some (Char.ofNat 8)
          else if e = 'f' then some (Char.ofNat 12)
          else none
        match dec with
        | some d =>
          match parseJStr fuel rest2 with
          | some (s, r) => some (⟨d :: s.data⟩, r)
          | none => none
        | none => none
    else if c.toNat < 32 then none
    else
      match parseJStr fuel rest with
      | some (s, r) => some (⟨c :: s.data⟩, r)
      | none => none

/-- Value of a run of decimal digits. -/
def digitsVal (ds : List Char) : Nat :=
  ds.foldl (fun a c => a * 10 + (c.toNat - 48)) 0

/-- Parse a run of decimal digits. -/
def parseDigits (l : List Char) : Option (Nat × List Char) :=
  let ds := l.takeWhile Char.isDigit
  if ds.isEmpty then none else some (digitsVal ds, l.drop ds.length)

mutual

/-- Recursive-descent JSON value parser (fuelled). -/
def parseJVal : Nat → List Char → Option (Json × List Char)
  | 0, _ => none
  | fuel + 1, l =>
    match skipWs l with
    | [] => none
    | c :: rest =>
      if c = qChar then
        match parseJStr fuel rest with
        | some (s, r) => some (Json.str s, r)
        | none => none
      else if c = lbraceChar then parseJObj fuel (skipWs rest) true
      else if c = lbrackChar then parseJArr fuel (skipWs rest) true
      else if c = '-' then
        match parseDigits rest with
        | some (n, r) => some (Json.num (-(n : Int)), r)
        | none => none
      else if c.isDigit then
        match parseDigits (c :: rest) with
        | some (n, r) => some (Json.num (n : Int), r)
        | none => none
      else if lpre ['t', 'r', 'u', 'e'] (c :: rest) then
        some (Json.bool true, (c :: rest).drop 4)
      else if lpre ['f', 'a', 'l', 's', 'e'] (c :: rest) then
        some (Json.bool false, (c :: rest).drop 5)
      else if lpre ['n', 'u', 'l', 'l'] (c :: rest) then
        some (Json.null, (c :: rest).drop 4)
      else none
termination_by structural fuel => fuel

/-- Parse object members after `{` (whitespace already skipped); `first`
marks that no member has been read yet. -/
def parseJObj : Nat → List Char → Bool → Option (Json × List Char)
  | 0, _, _ => none
  | fuel + 1, l, first =>
    match l with
    | [] => none
    | c :: rest =>
      if c = rbraceChar && first then some (Json.obj [], rest)
      else
        match parseJMembers fuel (c :: rest) [] with
        | some (fs, r) => some (Json.obj fs, r)
        | none => none
termination_by structural fuel => fuel

/-- Parse a non-empty comma-separated member list followed by `}`.
Later duplicate keys overwrite earlier ones, as in a Python dict build. -/
def parseJMembers : Nat → List Char → List (String × Json) → Option (List (String × Json) × List Char)
  | 0, _, _ => none
  | fuel + 1, l, acc =>
    match skipWs l with
    | [] => none
    | c :: rest =>
      if c = qChar then
        match parseJStr fuel rest with
        | some (k, r1) =>
          match skipWs r1 with
          | ':' :: r2 =>
            match parseJVal fuel r2 with
            | some (v, r3) =>
              let acc2 := pyDictSet acc k v
              match skipWs r3 with
              | ',' :: r4 => parseJMembers fuel r4 acc2
              | c2 :: r4 => if c2 = rbraceChar then some (acc2, r4) else none
              | [] => none
            | none => none
          | _ => none
        | none => none
      else none
termination_by structural fuel => fuel

/-- Parse array elements after `[` (whitespace already skipped); `first`
marks that no element has been read yet. -/
def parseJArr : Nat → List Char → Bool → Option (Json × List Char)
  | 0, _, _ => none
  | fuel + 1, l, first =>
    match l with
    | [] => none
    | c :: rest =>
      if c = rbrackChar && first then some (Json.arr [], rest)
      else
        match parseJElems fuel (c :: rest) [] with
        | some (xs, r) => some (Json.arr xs, r)
        | none => none
termination_by structural fuel => fuel

/-- Parse a non-empty comma-separated element list followed by `]`. -/
def parseJElems : Nat → List Char → List Json → Option (List Json × List Char)
  | 0, _, _ => none
  | fuel + 1, l, acc =>
    match parseJVal fuel l with
    | some (v, r) =>
      match skipWs r with
      | ',' :: r2 => parseJElems fuel r2 (acc ++ [v])
      | c2 :: r2 => if c2 = rbrackChar then some (acc ++ [v], r2) else none
      | [] => none
    | none => none
termination_by structural fuel => fuel

end

/-- Model of `json.loads`: parse one value and require only trailing
whitespace after it; `none` models a raised `JSONDecodeError`. -/
def json_loads (s : String) : Option Json :=
  match parseJVal (s.data.length * 3 + 16) s.data with
  | some (j, rest) => if (skipWs rest).isEmpty then some j else none
  | none => none

/-- Lower-case hex digit. -/
def hexDigitChar (n : Nat) : Char :=
  if n < 10 then Char.ofNat (48 + n) else Char.ofNat (87 + n)

/-- Escaping of one character inside a dumped JSON string
(`json.dumps` with `ensure_ascii=False`). -/
def jsonEscChar (c : Char) : List Char :=
  if c = qChar then [bslashChar, qChar]
  else if c = bslashChar then [bslashChar, bslashChar]
  else if c = '\n' then [bslashChar, 'n']
  else if c = '\r' then [bslashChar, 'r']
  else if c = '\t' then [bslashChar, 't']
  else if c.toNat = 8 then [bslashChar, 'b']
  else if c.toNat = 12 then [bslashChar, 'f']
  else if c.toNat < 32 then
    [bslashChar, 'u', '0', '0', hexDigitChar (c.toNat / 16), hexDigitChar (c.toNat % 16)]
  else [c]

/-- A dumped JSON string literal. -/
def jsonDumpStr (s : String) : String :=
  ⟨[qChar] ++ s.data.foldr (fun c acc => jsonEscChar c ++ acc) [] ++ [qChar]⟩

/-- `json.dumps({"download_url": url}, ensure_ascii=False)` (default
separators put `": "` between key and value). -/
def jsonDumpsDownload (url : String) : String :=
  ⟨[lbraceChar]⟩ ++ jsonDumpStr "download_url" ++ ": " ++ jsonDumpStr url ++ ⟨[rbraceChar]⟩

/-! ## Python `str()` of a JSON value (used only in `log` payloads) -/

mutual

/-- Python `str()` of a decoded JSON value (as interpolated by an f-string).
Container rendering approximates `repr` (inner strings are not re-escaped);
no claim depends on this text. -/
def pyStr : Json → String
  | .null => "None"
  | .bool true => "True"
  | .bool false => "False"
  | .num n => toString n
  | .str s => s
  | .arr xs => "[" ++ pyReprList xs ++ "]"
  | .obj fs => ⟨[lbraceChar]⟩ ++ pyReprFields fs ++ ⟨[rbraceChar]⟩

/-- Python `repr()` of a decoded JSON value (approximation, see `pyStr`). -/
def pyRepr : Json → String
  | .null => "None"
  | .bool true => "True"
  | .bool false => "False"
  | .num n => toString n
  | .str s => ⟨[squoteChar]⟩ ++ s ++ ⟨[squoteChar]⟩
  | .arr xs => "[" ++ pyReprList xs ++ "]"
  | .obj fs => ⟨[lbraceChar]⟩ ++ pyReprFields fs ++ ⟨[rbraceChar]⟩

/-- Comma-joined `repr`s of list elements. -/
def pyReprList : List Json → String
  | [] => ""
  | [x] => pyRepr x
  | x :: y :: rest => pyRepr x ++ ", " ++ pyReprList (y :: rest)

/-- Comma-joined `repr`s of dict entries. -/
def pyReprFields : List (String × Json) → String
  | [] => ""
  | [(k, v)] => pyRepr (Json.str k) ++ ": " ++ pyRepr v
  | (k, v) :: e :: rest => pyRepr (Json.str k) ++ ": " ++ pyRepr v ++ ", " ++ pyReprFields (e :: rest)

end

/-! ## Line decoder (`_safe_decode`) -/

/-- Is a byte a UTF-8 continuation byte? -/
def isContByte (b : Nat) : Bool := 128 ≤ b && b ≤ 191

/-- Allowed second byte of a 3-byte sequence (excludes overlong encodings
and surrogates, as CPython's strict UTF-8 decoder does). -/
def utf8Second3 (b b2 : Nat) : Bool :=
  if b = 224 then 160 ≤ b2 && b2 ≤ 191
  else if b = 237 then 128 ≤ b2 && b2 ≤ 159
  else isContByte b2

/-- Allowed second byte of a 4-byte sequence (excludes overlong encodings
and code points above U+10FFFF). -/
def utf8Second4 (b b2 : Nat) : Bool :=
  if b = 240 then 144 ≤ b2 && b2 ≤ 191
  else if b = 244 then 128 ≤ b2 && b2 ≤ 143
  else isContByte b2

/-- One step of UTF-8 decoding: `none` at end of input, otherwise the
decoded character (`none` for an invalid prefix — the decoder then either
raises or, with `errors="ignore"`, skips it) together with the number of
consumed bytes minus one (so one byte is always consumed, which makes
progress immediate). -/
def utf8Step : List Nat → Option (Option Char × Nat)
  | [] => none
  | b :: rest =>
    if b ≤ 127 then some (some (Char.ofNat b), 0)
    else if 194 ≤ b && b ≤ 223 then
      match rest with
      | b2 :: _ =>
        if isContByte b2 then
          some (some (Char.ofNat ((b - 192) * 64 + (b2 - 128))), 1)
        else some (none, 0)
      | [] => some (none, 0)
    else if 224 ≤ b && b ≤ 239 then
      match rest with
      | b2 :: b3 :: _ =>
        if utf8Second3 b b2 && isContByte b3 then
          some (some (Char.ofNat ((b - 224) * 4096 + (b2 - 128) * 64 + (b3 - 128))), 2)
        else some (none, 0)
      | _ => some (none, 0)
    else if 240 ≤ b && b ≤ 244 then
      match rest with
      | b2 :: b3 :: b4 :: _ =>
        if utf8Second4 b b2 && isContByte b3 && isContByte b4 then
          some (some (Char.ofNat ((b - 240) * 262144 + (b2 - 128) * 4096 + (b3 - 128) * 64 + (b4 - 128))), 3)
        else some (none, 0)
      | _ => some (none, 0)
    else some (none, 0)

/-- Fuelled UTF-8 decoding; in strict mode an invalid prefix is an error
(`UnicodeDecodeError`), with `ignore := true` it is skipped. -/
def utf8DecodeAux (ignore : Bool) : Nat → List Nat → Except Unit (List Char)
  | 0, _ => .error ()
  | fuel + 1, l =>
    match utf8Step l with
    | none => .ok []
    | some (some c, k) =>
      match utf8DecodeAux ignore fuel (l.drop (k + 1)) with
      | .ok cs => .ok (c :: cs)
      | .error e => .error e
    | some (none, k) =>
      if ignore then utf8DecodeAux ignore fuel (l.drop (k + 1)) else .error ()

/-- `bytes.decode("utf-8")` (strict) / `bytes.decode("utf-8", errors="ignore")`. -/
def bytesDecodeUtf8 (ignore : Bool) (bs : List Nat) : Except Unit String :=
  match utf8DecodeAux ignore (bs.length + 1) bs with
  | .ok cs => .ok ⟨cs⟩
  | .error e => .error e

/-- `bytes.decode("latin1", errors="ignore")`: every byte maps to its code
point, so no error is possible. -/
def bytesDecodeLatin1Ignore (bs : List Nat) : Except Unit String :=
  .ok ⟨bs.map Char.ofNat⟩

/-- `_safe_decode`: strict UTF-8, then UTF-8 ignoring errors, then latin-1
ignoring errors. An `.error` result would model an exception escaping the
function. -/
def _safe_decode (bs : List Nat) : Except Unit String :=
  match bytesDecodeUtf8 false bs with
  | .ok s => .ok s
  | .error _ =>
    match bytesDecodeUtf8 true bs with
    | .ok s => .ok s
    | .error _ => bytesDecodeLatin1Ignore bs

/-- The string `_safe_decode` produces (its totality is proved in
`safe_decode_total` below; the default is never reached). -/
def safeDecodeStr (bs : List Nat) : String :=
  match _safe_decode bs with
  | .ok s => s
  | .error _ => ""

/-! ## Handshake parsing (`_endpoint_and_context_from_data`) -/

/-- `urljoin("https://api.skywork.ai", p)` for a `p` that starts with `/`:
the base URL has an empty path, so the join is origin concatenation.
This is the only call pattern in the source. -/
def urljoinSkywork (path : String) : String := "https://api.skywork.ai" ++ path

/-- Hex digit value, both cases. -/
def hexVal (c : Char) : Option Nat :=
  if '0' ≤ c && c ≤ '9' then some (c.toNat - 48)
  else if 'a' ≤ c && c ≤ 'f' then some (c.toNat - 87)
  else if 'A' ≤ c && c ≤ 'F' then some (c.toNat - 55)
  else none

/-- Collect a maximal run of `%XX` byte escapes. -/
def pctBytes : Nat → List Char → List Nat × List Char
  | 0, l => ([], l)
  | fuel + 1, l =>
    match l with
    | p :: h1 :: h2 :: rest =>
      if p = '%' then
        match hexVal h1, hexVal h2 with
        | some a, some b =>
          let r := pctBytes fuel rest
          ((a * 16 + b) :: r.1, r.2)
        | _, _ => ([], l)
      else ([], l)
    | _ => ([], l)

/-- Decode the bytes of a percent-escape run (model: UTF-8 ignoring
errors; CPython uses `errors="replace"` — the difference never reaches a
claim). -/
def pctDecodeChars (bs : List Nat) : List Char :=
  match utf8DecodeAux true (bs.length + 1) bs with
  | .ok cs => cs
  | .error _ => []

/-- `urllib.parse.unquote_plus`. -/
def unquotePlusAux : Nat → List Char → List Char
  | 0, l => l
  | _ + 1, [] => []
  | fuel + 1, c :: rest =>
    if c = '+' then ' ' :: unquotePlusAux fuel rest
    else if c = '%' then
      let r := pctBytes (fuel + 1) (c :: rest)
      if r.1.isEmpty then c :: unquotePlusAux fuel rest
      else pctDecodeChars r.1 ++ unquotePlusAux fuel r.2
    else c :: unquotePlusAux fuel rest

/-- `urllib.parse.unquote_plus` on a string. -/
def unquote_plus (s : String) : String := ⟨unquotePlusAux s.data.length s.data⟩

/-- Split a character list on a separator character. -/
def splitOnChar (sep : Char) : List Char → List (List Char)
  | [] => [[]]
  | c :: rest =>
    match splitOnChar sep rest with
    | [] => [[]]
    | g :: gs => if c = sep then [] :: g :: gs else (c :: g) :: gs

/-- Append a value to a key's group, preserving first-insertion order
(how `parse_qs` accumulates its result dict). -/
def qsAppend : List (String × List String) → String → String → List (String × List String)
  | [], n, v => [(n, [v])]
  | (k, vs) :: rest, n, v =>
    if k = n then (k, vs ++ [v]) :: rest else (k, vs) :: qsAppend rest n v

/-- `urllib.parse.parse_qs` with default options: split on `&`, split each
pair at the first `=`, drop pairs with no `=` or an empty value, unquote
names and values. -/
def parse_qs (qs : String) : List (String × List String) :=
  if qs = "" then []
  else
    (splitOnChar '&' qs.data).foldl
      (fun acc pair =>
        match pair.dropWhile (· ≠ '=') with
        | [] => acc
        | _ :: vtail =>
          if vtail.isEmpty then acc
          else
            qsAppend acc (unquote_plus ⟨pair.takeWhile (· ≠ '=')⟩) (unquote_plus ⟨vtail⟩))
      []

/-- First value stored for a query key (`q[k][0]`; `parse_qs` groups are
never empty). -/
def qsFirst (q : List (String × List String)) (k : String) : Option String :=
  match q with
  | [] => none
  | (k2, vs) :: rest => if k2 = k then vs.head? else qsFirst rest k

/-- The `urlparse(endpoint).query` component: the part after the first `?`
of the part before the first `#`. -/
def urlQueryOf (u : String) : String :=
  match (u.data.takeWhile (· ≠ '#')).dropWhile (· ≠ '?') with
  | [] => ""
  | _ :: t => ⟨t⟩

/-- The session-ish keys copied from a handshake JSON object into the
context. -/
def sessionMetaKeys : List String :=
  ["session_id", "sessionId", "conversation_id", "conversationId", "channel", "room"]

/-- The session-ish keys looked up in the endpoint's query string. -/
def sessionQueryKeys : List String :=
  ["sessionId", "session_id", "conversationId", "conversation_id"]

/-- `_endpoint_and_context_from_data`. Returns the resolved endpoint (or
`none` for a falsy one) and the extracted context. `.error` models the
`AttributeError` CPython raises at `endpoint.startswith` when the JSON
payload carries a truthy non-string `endpoint`/`url` value. -/
def _endpoint_and_context_from_data (data : String) :
    Except Unit (Option String × List (String × Json)) :=
  let step1 : Option Json × List (String × Json) :=
    if pyStartsWith data lbraceStr then
      match json_loads data with
      | some (Json.obj fields) =>
        let e1 := jGet fields "endpoint"
        let epj := if optTruthy e1 then e1 else jGet fields "url"
        let ctx0 : List (String × Json) :=
          match jGet fields "context" with
          | some (Json.obj cfs) => pyDictUpdate [] cfs
          | _ => []
        let ctx1 := sessionMetaKeys.foldl
          (fun c k => match jGet fields k with
            | some v => pyDictSet c k v
            | none => c) ctx0
        (epj, ctx1)
      | some _ => (some (Json.str data), [])
      | none => (some (Json.str data), [])
    else (some (Json.str data), [])
  if !optTruthy step1.1 then .ok (none, step1.2)
  else
    match step1.1 with
    | some (Json.str ep0) =>
      let ep1 := if pyStartsWith ep0 "/" then urljoinSkywork ep0 else ep0
      let q := parse_qs (urlQueryOf ep1)
      let ctx2 := sessionQueryKeys.foldl
        (fun c k => match qsFirst q k with
          | some v => pyDictSet c k (Json.str v)
          | none => c) step1.2
      .ok (some ep1, ctx2)
    | _ => .error ()

/-! ## Request model and `build_query` -/

/-- The `mode` literal of `MakeDeckReq`. -/
inductive Mode where
  | ppt
  | pptFast
  | doc
  | excel
deriving DecidableEq

/-- `MakeDeckReq` (the inbound request body). -/
structure MakeDeckReq where
  topic : String
  template_hint : Option String
  use_network : Bool
  mode : Mode
  outline_md : Option String

/-- Python truthiness of an optional string (`None` and `""` are falsy). -/
def optStrTruthy : Option String → Bool
  | none => false
  | some s => s ≠ ""

/-- The `mode_desc` dict of `build_query`: every mode maps to the template
`"{topic}"` (and the `.get` default is the same value). -/
def mode_desc : Mode → String
  | .ppt => "\x7btopic\x7d"
  | .pptFast => "\x7btopic\x7d"
  | .doc => "\x7btopic\x7d"
  | .excel => "\x7btopic\x7d"

/-- `template.format(topic=t)` for the templates above: replace the
placeholder with the topic. -/
def pyFormatTopic (template topic : String) : String :=
  pyReplace template "\x7btopic\x7d" topic

/-- `build_query`. -/
def build_query (req : MakeDeckReq) : String :=
  let prefixPart :=
    if optStrTruthy req.outline_md then
      "请基于以下大纲生成：\n" ++ req.outline_md.getD "" ++ "\n"
    else
      pyFormatTopic (mode_desc req.mode) req.topic
  let hint :=
    if optStrTruthy req.template_hint then
      " 模板/品牌要求：" ++ req.template_hint.getD "" ++ "。"
    else ""
  pyStrip (prefixPart ++ hint)

/-! ## Relay session state machine (`event_stream` / `flush_and_emit`) -/

/-- The mutable per-session state captured by the closure in
`event_stream` (`endpoint_url`, `called`, `context`, `sent_done`). -/
structure Sess where
  endpoint_url : Option String
  called : Bool
  context : List (String × Json)
  sent_done : Bool

/-- Initial state of a session (after a successful 200 connect). -/
def initSess : Sess := ⟨none, false, [], false⟩

/-- A downstream SSE event as yielded by the generator. -/
inductive Ev where
  | log (msg : String)
  | error (msg : String)
  | done (payload : String)
  | eofComment
deriving DecidableEq

/-- Serialization of a downstream event to the exact text the generator
yields. -/
def renderEv : Ev → String
  | .log m => "event: log\ndata: " ++ m ++ "\n\n"
  | .error m => "event: error\ndata: " ++ m ++ "\n\n"
  | .done p => "event: done\ndata: " ++ p ++ "\n\n"
  | .eofComment => ": EOF\n\n"

/-- An observable effect of the session: a yielded downstream event or an
attempted `requests.post` trigger call to the handshake endpoint. -/
inductive Effect where
  | emit (e : Ev)
  | post (url : String)
deriving DecidableEq

/-- Environment oracle for one `requests.post` attempt: success, or a
raised `RequestException` with message `msg`. -/
inductive PostResult where
  | ok
  | fail (msg : String)

/-- Result of one `flush_and_emit` call: the state after it, the effects
it produced in order, and whether it terminated by raising a Python
exception (which then propagates to `event_stream`'s outer handler). -/
structure StepOut where
  st : Sess
  effs : List Effect
  exc : Bool

/-- The literal `[DONE]` payload. -/
def doneMark : String := "[DONE]"

/-- The escaped-ampersand artifact undone on found URLs: the six
characters `&`. -/
def escU0026 : String := ⟨[bslashChar, 'u', '0', '0', '2', '6']⟩

/-- The log line sent after a successful trigger call. -/
def startedLogMsg : String := "已连接引擎，正在生成大纲与内容..."

/-- Field-extraction loop of `flush_and_emit` (lines `for ln in buf: ...`):
`event:` lines set the name (last wins), `data:` lines append their
lstripped remainder plus a newline. -/
def assembleND (buf : List String) : String × String :=
  buf.foldl
    (fun acc ln =>
      if pyStartsWith ln "event:" then (pyStrip (afterFirstColon ln), acc.2)
      else if pyStartsWith ln "data:" then (acc.1, acc.2 ++ (pyLstrip (afterFirstColon ln) ++ "\n"))
      else acc)
    ("message", "")

/-- Is the decoded payload a ping
(`isinstance(json_obj, dict) and json_obj.get("method") == "ping"`)? -/
def isPingObj : Option Json → Bool
  | some (Json.obj fs) =>
    match jGet fs "method" with
    | some (Json.str s) => s = "ping"
    | _ => false
  | _ => false

/-- Python `"text" in c0` for an arbitrary value: key test on dicts,
substring test on strings, membership on lists; a `TypeError` otherwise. -/
def pyInJson (sub : String) : Json → Except Unit Bool
  | .obj fs => .ok (jGet fs sub).isSome
  | .str s => .ok (pyIn sub s)
  | .arr xs => .ok (xs.any fun x => match x with | .str s => s == sub | _ => false)
  | _ => .error ()

/-- The `log_msg` extraction of `flush_and_emit` (JSON `message` field,
else first `content` element's `text`). `.error` models the `TypeError` /
`AttributeError` paths (`c[0]["text"]` on a non-dict, `.strip()` on a
non-string), which the outer handler of `event_stream` catches. -/
def logMsgExtract (jsonObj : Option Json) : Except Unit (Option Json) :=
  match jsonObj with
  | some (Json.obj fs) =>
    match jGet fs "message" with
    | some m => .ok (some m)
    | none =>
      match jGet fs "content" with
      | some (Json.arr (c0 :: _)) =>
        match pyInJson "text" c0 with
        | .error _ => .error ()
        | .ok false => .ok none
        | .ok true =>
          match c0 with
          | .obj fs0 =>
            match jGet fs0 "text" with
            | some (Json.str t) =>
              if !pyStartsWith (pyStrip t) lbraceStr then .ok (some (Json.str t)) else .ok none
            | some _ => .error ()
            | none => .ok none
          | _ => .error ()
      | _ => .ok none
  | _ => .ok none

/-- The generic-log tail of `flush_and_emit` (step 5 in the source): build
`log_msg`, fall back to a short non-JSON payload, emit a `log` event if
truthy. -/
def logBranch (st : Sess) (jsonObj : Option Json) (data_str : String) : StepOut :=
  match logMsgExtract jsonObj with
  | .error _ => ⟨st, [], true⟩
  | .ok lm0 =>
    let lm : Option Json :=
      if !optTruthy lm0 && !pyStartsWith data_str lbraceStr && data_str.length < 200 then
        some (Json.str data_str)
      else lm0
    match lm with
    | some j => if jsonTruthy j then ⟨st, [.emit (.log (pyStr j))], false⟩ else ⟨st, [], false⟩
    | none => ⟨st, [], false⟩

/-- The `name == "endpoint"` branch of `flush_and_emit`: re-parse the
endpoint, merge context, and attempt the one-shot `tools/call` trigger if
the flag is still clear. The entry guard of `flush_and_emit` guarantees
`st.sent_done = false` here, so the `if not sent_done` around the forced
`done` in the failure path is taken. -/
def endpointBranch (st : Sess) (data_str : String) (pr : PostResult) : StepOut :=
  match _endpoint_and_context_from_data data_str with
  | .error _ => ⟨st, [], true⟩
  | .ok (ep, ctx) =>
    let st1 : Sess :=
      { st with
        endpoint_url := ep
        context := if ctx.isEmpty then st.context else pyDictUpdate st.context ctx }
    match ep with
    | some url =>
      if st1.called then ⟨st1, [], false⟩
      else
        match pr with
        | .ok => ⟨{ st1 with called := true }, [.post url, .emit (.log startedLogMsg)], false⟩
        | .fail m =>
          ⟨{ st1 with sent_done := true },
            [.post url, .emit (.error ("tools/call failed: " ++ m))] ++
              (if st1.sent_done then [] else [.emit (.done doneMark)]),
            false⟩
    | none => ⟨st1, [], false⟩

/-- `flush_and_emit` after the URL short-circuit declined (steps 4, ping,
endpoint, token exhaustion, log passthrough). -/
def flushTail (st : Sess) (name data_str : String) (pr : PostResult) : StepOut :=
  let jsonObj := json_loads data_str
  if isPingObj jsonObj then ⟨st, [.emit (.log "...")], false⟩
  else if name = "endpoint" then endpointBranch st data_str pr
  else if pyIn "token exhausted" (asciiLower data_str) then
    ⟨{ st with sent_done := true },
      [.emit (.error "Token exhausted")] ++ (if st.sent_done then [] else [.emit (.done doneMark)]),
      false⟩
  else logBranch st jsonObj data_str

/-- `flush_and_emit` body after the record was assembled and found
non-empty: URL short-circuit first, then the tail. -/
def flushCore (st : Sess) (name data_str : String) (pr : PostResult) : StepOut :=
  match _pick_best_url (_collect_urls_from_text data_str) with
  | some bl0 =>
    ⟨{ st with sent_done := true },
      [.emit (.done (jsonDumpsDownload (pyReplace bl0 escU0026 "&"))), .emit .eofComment],
      false⟩
  | none => flushTail st name data_str pr

/-- `flush_and_emit(buf)`: no-op on an empty buffer or a terminated
session; assemble the record; no-op on an empty payload; otherwise run the
dispatch. -/
def flush_and_emit (st : Sess) (buf : List String) (pr : PostResult) : StepOut :=
  if buf.isEmpty || st.sent_done then ⟨st, [], false⟩
  else
    let nd := assembleND buf
    let data_str := pyStrip nd.2
    if data_str = "" then ⟨st, [], false⟩
    else flushCore st nd.1 data_str pr

/-- Placeholder for `str(e)` of an exception raised inside
`flush_and_emit` (its text never matters to a claim). -/
def internalExcMsg : String := "internal error"

/-- The read loop of `event_stream` over `r.iter_lines(...)`. Each item is
one `iter_lines` result (a byte line; empty means a blank line, i.e. a
record separator) paired with the oracle for a trigger attempt performed
while flushing at that point. `endRaises = some msg` models the transport
raising (with `str(e) = msg`) once the listed items are exhausted;
`none` models a clean close. The result is the final state and the
ordered effects, outer exception handler included. -/
def runLoop : Sess → List String → Option String → List (List Nat × PostResult) →
    Sess × List Effect
  | st, _, endRaises, [] =>
    match endRaises with
    | some m =>
      (st, [.emit (.error m)] ++ (if st.sent_done then [] else [.emit (.done doneMark)]))
    | none =>
      if st.sent_done then (st, [])
      else ({ st with sent_done := true }, [.emit (.done doneMark)])
  | st, buffer, endRaises, (bs, pr) :: rest =>
    if st.sent_done then (st, [])
    else if !bs.isEmpty then
      runLoop st (buffer ++ [pyStrip (safeDecodeStr bs)]) endRaises rest
    else
      let so := flush_and_emit st buffer pr
      if so.exc then
        (so.st,
          so.effs ++ [.emit (.error internalExcMsg)] ++
            (if so.st.sent_done then [] else [.emit (.done doneMark)]))
      else
        let r2 := runLoop so.st [] endRaises rest
        (r2.1, so.effs ++ r2.2)

/-- The upstream world one `event_stream` invocation observes:
`connectFail` = `requests.get` raised; `badStatus` = non-200 response with
body `text`; `stream` = a 200 response delivering the listed lines. -/
inductive Upstream where
  | connectFail (msg : String)
  | badStatus (text : String)
  | stream (items : List (List Nat × PostResult)) (endRaises : Option String)

/-- `event_stream` as a whole: the ordered effects of one session. -/
def event_stream : Upstream → List Effect
  | .connectFail m => [.emit (.error m), .emit (.done doneMark)]
  | .badStatus t => [.emit (.error ("SSE connect failed: " ++ t)), .emit (.done doneMark)]
  | .stream items endRaises => (runLoop initSess [] endRaises items).2

/-- The downstream events of a session (the `post` side effects are not
part of the client-visible stream). -/
def emittedEvents (u : Upstream) : List Ev :=
  (event_stream u).filterMap fun e => match e with | .emit ev => some ev | .post _ => none

/-- Is a downstream event a `done` event? -/
def isDoneEv : Ev → Bool
  | .done _ => true
  | _ => false

/-- Is an effect an emitted `done` event? -/
def isDoneEff : Effect → Bool
  | .emit (.done _) => true
  | _ => false

/-- Is an effect a trigger-call attempt? -/
def isPostEff : Effect → Bool
  | .post _ => true
  | _ => false

/-! ## Theorems -/

/-- Ignoring-mode UTF-8 decoding never fails when given enough fuel. -/
theorem utf8DecodeAux_ignore_total :
    ∀ (fuel : Nat) (l : List Nat), l.length < fuel →
      ∃ cs, utf8DecodeAux true fuel l = .ok cs := by
  intro fuel
  induction fuel with
  | zero => intro l h; omega
  | succ n ih =>
    intro l h
    cases l with
    | nil => exact ⟨[], rfl⟩
    | cons b rest =>
      simp only [utf8DecodeAux]
      cases hs : utf8Step (b :: rest) with
      | none => exact ⟨[], rfl⟩
      | some pk =>
        obtain ⟨p, k⟩ := pk
        have hlen : (rest.drop k).length < n := by
          simp only [List.length_drop, List.length_cons] at h ⊢
          omega
        obtain ⟨cs, hcs⟩ := ih _ hlen
        cases p with
        | none => exact ⟨cs, by simp [hcs]⟩
        | some c => exact ⟨c :: cs, by simp [hcs]⟩

/-- `bytes.decode("utf-8", errors="ignore")` always succeeds. -/
theorem bytesDecodeUtf8_ignore_total (bs : List Nat) :
    ∃ s, bytesDecodeUtf8 true bs = .ok s := by
  obtain ⟨cs, hcs⟩ := utf8DecodeAux_ignore_total (bs.length + 1) bs (by omega)
  exact ⟨⟨cs⟩, by simp [bytesDecodeUtf8, hcs]⟩

/-- C9. `_safe_decode` always returns a text string (never lets an
exception escape): strict UTF-8 is attempted first and its result is
returned verbatim when it succeeds; when it raises, the UTF-8
ignore-errors retry (which cannot fail) supplies the result, so the
final latin-1 fallback is a safety net that is never required. -/
theorem C9_safe_decode_total (bs : List Nat) :
    (∃ s, _safe_decode bs = Except.ok s) ∧
    (∀ s, bytesDecodeUtf8 false bs = Except.ok s → _safe_decode bs = Except.ok s) := by
  constructor
  · cases h : bytesDecodeUtf8 false bs with
    | ok s => exact ⟨s, by simp [_safe_decode, h]⟩
    | error e =>
      obtain ⟨s, hs⟩ := bytesDecodeUtf8_ignore_total bs
      exact ⟨s, by simp [_safe_decode, h, hs]⟩
  · intro s hs
    simp [_safe_decode, hs]

/-- Witness for C9 at concrete bytes: `b"a"` decodes strictly, and the
invalid byte `0xFF` still produces a string. -/
theorem C9_safe_decode_total_witness :
    _safe_decode [97] = Except.ok "a" ∧ ∃ s, _safe_decode [255] = Except.ok s :=
  ⟨(C9_safe_decode_total [97]).2 "a" rfl, (C9_safe_decode_total [255]).1⟩

/-- C8. The handshake payload `{"endpoint":"/open/message?sessionId=abc123"}`
resolves against the base origin to the absolute URL and yields the
session id in the context. -/
theorem C8_handshake_resolution :
    _endpoint_and_context_from_data "\x7b\"endpoint\":\"/open/message?sessionId=abc123\"\x7d" =
      Except.ok (some "https://api.skywork.ai/open/message?sessionId=abc123",
        [("sessionId", Json.str "abc123")]) := by
  rfl

/-- C10. `build_query` is independent of the request's `mode` field: two
requests differing only in `mode` produce identical upstream query text. -/
theorem C10_build_query_mode_independent (topic : String) (th : Option String)
    (un : Bool) (om : Option String) (m1 m2 : Mode) :
    build_query ⟨topic, th, un, m1, om⟩ = build_query ⟨topic, th, un, m2, om⟩ := by
  cases m1 <;> cases m2 <;> rfl

/-- Modelled from the claim's words for C7 (the statement under test):
base 10, plus `(100 - rank)` when the URL — as written, not lower-cased —
ends with `"."` plus the rank-th preferred extension, plus 15 / plus 10
for the substring checks, which the claim does mark case-insensitive. -/
def claimScoreUrl (u : String) : Nat :=
  let low := asciiLower u
  10 +
    (PREFERRED_EXTS.enumFrom 1).foldl
      (fun sc p => if pyEndsWith u ("." ++ p.2) then sc + (100 - p.1) else sc) 0 +
    (if pyIn "download" low || pyIn "export" low || pyIn "file" low then 15 else 0) +
    (if pyIn "signature=" low || pyIn "token=" low then 10 else 0)

set_option maxHeartbeats 1000000 in
/-- C7 counterexample: `_score_url` lower-cases the URL before the
extension test, so an upper-case `.PPTX` URL scores 109 where the claim's
case-sensitive reading yields 10. -/
theorem C7_counterexample :
    _score_url "https://x.test/A.PPTX" = 109 ∧
    claimScoreUrl "https://x.test/A.PPTX" = 10 ∧ (109 : Nat) ≠ 10 :=
  ⟨by decide, by decide, by decide⟩

/-- The C7 score decomposition with the extension test applied to the
lower-cased URL, as the code does. -/
def amendedScoreUrl (u : String) : Nat :=
  let s := asciiLower u
  10 + (if pyEndsWith s ".pptx" then 99 else 0) + (if pyEndsWith s ".docx" then 98 else 0) +
    (if pyEndsWith s ".xlsx" then 97 else 0) + (if pyEndsWith s ".pdf" then 96 else 0) +
    (if pyEndsWith s ".zip" then 95 else 0) +
    (if pyIn "download" s || pyIn "export" s || pyIn "file" s then 15 else 0) +
    (if pyIn "signature=" s || pyIn "token=" s then 10 else 0)

set_option maxHeartbeats 1000000 in
/-- C7 (amended): `_score_url` is exactly the claim's sum — 10, plus
`(100 - rank)` for the preferred extension the *lower-cased* URL ends with
(at most one extension of the default list can match), plus 15 for
download/export/file, plus 10 for signature=/token= — and consequently
`_pick_best_url` on a `.zip`/`.pptx` pair returns the `.pptx` URL in
either presentation order. -/
theorem C7_amended_score_decomposition :
    (∀ u, _score_url u = amendedScoreUrl u) ∧
    _pick_best_url ["https://x.test/deck.zip", "https://x.test/deck.pptx"] =
      some "https://x.test/deck.pptx" ∧
    _pick_best_url ["https://x.test/deck.pptx", "https://x.test/deck.zip"] =
      some "https://x.test/deck.pptx" := by
  refine ⟨fun u => ?_, by decide, by decide⟩
  have h1 : ("." ++ "pptx" : String) = ".pptx" := rfl
  have h2 : ("." ++ "docx" : String) = ".docx" := rfl
  have h3 : ("." ++ "xlsx" : String) = ".xlsx" := rfl
  have h4 : ("." ++ "pdf" : String) = ".pdf" := rfl
  have h5 : ("." ++ "zip" : String) = ".zip" := rfl
  simp only [_score_url, amendedScoreUrl, PREFERRED_EXTS, List.enumFrom, List.foldl,
    h1, h2, h3, h4, h5]
  split_ifs <;> omega

/-- A terminated session absorbs every further record: once `sent_done`
is set, `flush_and_emit` changes nothing and emits nothing. -/
theorem flush_sent_noop (st : Sess) (buf : List String) (pr : PostResult)
    (h : st.sent_done = true) : flush_and_emit st buf pr = ⟨st, [], false⟩ := by
  unfold flush_and_emit
  rw [h]
  simp

/-- An empty payload cannot contain a URL. -/
theorem pick_on_empty : _pick_best_url (_collect_urls_from_text "") = none := by decide

/-- C4. URL short-circuit: whenever the assembled record of a live session
has a payload whose URL scan picks a best URL — whatever the record's
event name and the session's handshake state — `flush_and_emit` emits
exactly a `done` event whose payload is the dumped
`{"download_url": ...}` object with every literal `&` replaced by
`&`, followed by the `: EOF` sentinel, and marks the session DONE. Since
this is the first branch after assembly, it pre-empts ping suppression,
handshake handling, token-exhaustion detection and log passthrough. -/
theorem C4_url_short_circuit (st : Sess) (buf : List String) (pr : PostResult)
    (url : String) (h1 : st.sent_done = false) (h2 : buf.isEmpty = false)
    (hp : _pick_best_url (_collect_urls_from_text (pyStrip (assembleND buf).2)) = some url) :
    flush_and_emit st buf pr =
      ⟨{ st with sent_done := true },
        [.emit (.done (jsonDumpsDownload (pyReplace url escU0026 "&"))), .emit .eofComment],
        false⟩ := by
  have hne : pyStrip (assembleND buf).2 ≠ "" := by
    intro he
    rw [he, pick_on_empty] at hp
    exact Option.noConfusion hp
  unfold flush_and_emit
  rw [h1, h2]
  simp only [Bool.or_false, Bool.false_eq_true, if_false, hne, ite_false]
  unfold flushCore
  rw [hp]

/-- The concrete record of C4: a `message`-named record whose payload
contains `https://x.test/out.pptx?signature=abc` produces the `done`
event carrying exactly that URL, then the sentinel. -/
theorem C4_url_short_circuit_witness :
    flush_and_emit initSess ["data: see https://x.test/out.pptx?signature=abc ok"] .ok =
      ⟨{ initSess with sent_done := true },
        [.emit (.done (jsonDumpsDownload "https://x.test/out.pptx?signature=abc")),
          .emit .eofComment],
        false⟩ :=
  C4_url_short_circuit initSess ["data: see https://x.test/out.pptx?signature=abc ok"] .ok
    "https://x.test/out.pptx?signature=abc" rfl rfl (by decide)

/-- C6. Token exhaustion: a live record whose payload contains
`"token exhausted"` in any case (and carries no URL, is not a ping, and is
not an `endpoint` record) makes `flush_and_emit` emit exactly one `error`
event followed by exactly one `done` event and marks the session DONE;
and a DONE session processes no further records at all. -/
theorem C6_token_exhausted (st : Sess) (buf : List String) (pr : PostResult)
    (h1 : st.sent_done = false) (h2 : buf.isEmpty = false)
    (h3 : pyIn "token exhausted" (asciiLower (pyStrip (assembleND buf).2)) = true)
    (h4 : _pick_best_url (_collect_urls_from_text (pyStrip (assembleND buf).2)) = none)
    (h5 : isPingObj (json_loads (pyStrip (assembleND buf).2)) = false)
    (h6 : (assembleND buf).1 ≠ "endpoint") :
    flush_and_emit st buf pr =
      ⟨{ st with sent_done := true },
        [.emit (.error "Token exhausted"), .emit (.done doneMark)], false⟩ ∧
    ∀ st2 buf2 pr2, st2.sent_done = true → flush_and_emit st2 buf2 pr2 = ⟨st2, [], false⟩ := by
  refine ⟨?_, fun st2 buf2 pr2 h => flush_sent_noop st2 buf2 pr2 h⟩
  have hne : pyStrip (assembleND buf).2 ≠ "" := by
    intro he
    rw [he] at h3
    exact absurd h3 (by decide)
  unfold flush_and_emit
  rw [h1, h2]
  simp only [Bool.or_false, Bool.false_eq_true, if_false, hne, ite_false]
  unfold flushCore
  simp only [h4]
  unfold flushTail
  simp only [h5, Bool.false_eq_true, if_false, h6, ite_false, h3, if_true, ite_true, h1,
    List.singleton_append]

/-- Witness for C6 at a concrete record, plus absorption at a DONE state. -/
theorem C6_token_exhausted_witness :
    flush_and_emit initSess ["data: ERROR - Token Exhausted"] .ok =
      ⟨{ initSess with sent_done := true },
        [.emit (.error "Token exhausted"), .emit (.done doneMark)], false⟩ ∧
    flush_and_emit ⟨none, false, [], true⟩ ["data: later record"] .ok =
      ⟨⟨none, false, [], true⟩, [], false⟩ := by
  have h := C6_token_exhausted initSess ["data: ERROR - Token Exhausted"] .ok
    rfl rfl (by decide) (by decide) (by decide) (by decide)
  exact ⟨h.1, h.2 ⟨none, false, [], true⟩ ["data: later record"] .ok rfl⟩

/-- C2 counterexample: in a session that receives two handshake records,
the endpoint URL set by the first handshake (`/a`, resolved and used for
the trigger call) is overwritten by the second handshake (`/b`): the code
implements last-handshake-wins, not first-handshake-wins. -/
theorem C2_counterexample :
    (flush_and_emit initSess ["event: endpoint", "data: /a"] PostResult.ok).st.endpoint_url =
      some "https://api.skywork.ai/a" ∧
    (flush_and_emit (flush_and_emit initSess ["event: endpoint", "data: /a"] PostResult.ok).st
        ["event: endpoint", "data: /b"] PostResult.ok).st.endpoint_url =
      some "https://api.skywork.ai/b" ∧
    some "https://api.skywork.ai/b" ≠ some "https://api.skywork.ai/a" :=
  ⟨by decide, by decide, by decide⟩

/-- C2 (amended). Every handshake record processed by a live session
reassigns the session's endpoint URL to the value resolved from that
record's payload — the last handshake wins, regardless of any previously
stored endpoint URL (the one-shot trigger call is still tied to the
`called` flag, see C5). -/
theorem C2_amended_last_handshake_wins (st : Sess) (buf : List String) (pr : PostResult)
    (ep : Option String) (ctx : List (String × Json))
    (h1 : st.sent_done = false) (h2 : buf.isEmpty = false)
    (h4 : _pick_best_url (_collect_urls_from_text (pyStrip (assembleND buf).2)) = none)
    (h5 : isPingObj (json_loads (pyStrip (assembleND buf).2)) = false)
    (h6 : (assembleND buf).1 = "endpoint")
    (h7 : pyStrip (assembleND buf).2 ≠ "")
    (h8 : _endpoint_and_context_from_data (pyStrip (assembleND buf).2) = .ok (ep, ctx)) :
    (flush_and_emit st buf pr).st.endpoint_url = ep := by
  unfold flush_and_emit
  rw [h1, h2]
  simp only [Bool.or_false, Bool.false_eq_true, if_false, h7, ite_false]
  unfold flushCore
  simp only [h4]
  unfold flushTail
  simp only [h5, Bool.false_eq_true, if_false, h6, ite_true, if_true]
  unfold endpointBranch
  simp only [h8]
  cases ep with
  | none => simp
  | some url =>
    by_cases hc : st.called <;> cases pr <;> simp [hc]

/-- Witness for C2 (amended): a session whose endpoint URL is already
`/a`'s resolution and whose trigger already fired still gets its endpoint
URL overwritten by a later `/b` handshake. -/
theorem C2_amended_last_handshake_wins_witness :
    (flush_and_emit ⟨some "https://api.skywork.ai/a", true, [], false⟩
        ["event: endpoint", "data: /b"] PostResult.ok).st.endpoint_url =
      some "https://api.skywork.ai/b" :=
  C2_amended_last_handshake_wins ⟨some "https://api.skywork.ai/a", true, [], false⟩
    ["event: endpoint", "data: /b"] PostResult.ok
    (some "https://api.skywork.ai/b") [] rfl rfl (by decide) (by decide) (by decide)
    (by decide) rfl

/-! ## The event assembler (C3) -/

/-- Is a buffered line an `event:` field line? -/
def isEventLine (ln : String) : Bool := pyStartsWith ln "event:"

/-- Is a buffered line a `data:` field line? -/
def isDataLine (ln : String) : Bool := pyStartsWith ln "data:"

/-- The name-tracking step of the assembler loop. -/
def nameStep (cur ln : String) : String :=
  if pyStartsWith ln "event:" then pyStrip (afterFirstColon ln) else cur

/-- The data-tracking step of the assembler loop. -/
def dataStep (cur ln : String) : String :=
  if pyStartsWith ln "event:" then cur
  else if pyStartsWith ln "data:" then cur ++ (pyLstrip (afterFirstColon ln) ++ "\n")
  else cur

/-- The extracted data part of one `data:` line. -/
def dataPartOf (ln : String) : String := pyLstrip (afterFirstColon ln)

/-- Declarative record name: the (stripped) value of the last `event:`
line, defaulting to `"message"`. -/
def specName (buf : List String) : String :=
  match buf.reverse.find? isEventLine with
  | some ln => pyStrip (afterFirstColon ln)
  | none => "message"

/-- Join with a newline between consecutive entries (the SSE multi-line
data convention). -/
def joinNL : List String → String
  | [] => ""
  | [x] => x
  | x :: y :: rest => x ++ "\n" ++ joinNL (y :: rest)

/-- Declarative record payload: the lstripped remainders of the `data:`
lines, newline-joined, then stripped. -/
def specData (buf : List String) : String :=
  pyStrip (joinNL ((buf.filter isDataLine).map dataPartOf))

/-- Modelled from the claim's words for C3 (the statement under test):
each data line loses exactly one leading space after the colon (if
present), instead of the code's full `lstrip()`. -/
def claimDataLine (ln : String) : String :=
  match (afterFirstColon ln).data with
  | ' ' :: rest => ⟨rest⟩
  | l => ⟨l⟩

/-- Modelled from the claim's words for C3: the payload built with the
one-space rule. -/
def claimAssembleData (buf : List String) : String :=
  pyStrip (joinNL ((buf.filter isDataLine).map claimDataLine))

/-- C3 counterexample: on `data:` lines carrying more than one space after
the colon, the code's `lstrip()` removes all leading whitespace, so the
claim's "exactly one leading space" payload differs from the assembled
payload. -/
theorem C3_counterexample :
    pyStrip (assembleND ["data: a", "data:  b"]).2 = "a\nb" ∧
    claimAssembleData ["data: a", "data:  b"] = "a\n b" ∧
    ("a\nb" : String) ≠ "a\n b" :=
  ⟨by decide, by decide, by decide⟩

/-- An event line is never a data line (their prefixes differ at the
first character). -/
theorem event_line_not_data (ln : String) (h : pyStartsWith ln "event:" = true) :
    pyStartsWith ln "data:" = false := by
  unfold pyStartsWith at h ⊢
  have he : ("event:" : String).data = ['e', 'v', 'e', 'n', 't', ':'] := rfl
  have hd : ("data:" : String).data = ['d', 'a', 't', 'a', ':'] := rfl
  rw [he] at h
  rw [hd]
  cases hl : ln.data with
  | nil => rw [hl] at h; exact absurd h (by decide)
  | cons c t =>
    rw [hl] at h
    simp only [lpre, Bool.and_eq_true, beq_iff_eq] at h
    obtain ⟨hc, -⟩ := h
    subst hc
    simp [lpre]

/-- The assembler's single loop splits into the two independent folds. -/
theorem assembleND_eq_folds (buf : List String) :
    assembleND buf = (buf.foldl nameStep "message", buf.foldl dataStep "") := by
  unfold assembleND
  suffices h : ∀ (a b : String),
      buf.foldl (fun acc ln =>
        if pyStartsWith ln "event:" then (pyStrip (afterFirstColon ln), acc.2)
        else if pyStartsWith ln "data:" then (acc.1, acc.2 ++ (pyLstrip (afterFirstColon ln) ++ "\n"))
        else acc) (a, b) =
      (buf.foldl nameStep a, buf.foldl dataStep b) by
    exact h "message" ""
  induction buf with
  | nil => intro a b; rfl
  | cons ln rest ih =>
    intro a b
    simp only [List.foldl_cons]
    have hstep :
        (if pyStartsWith ln "event:" then (pyStrip (afterFirstColon ln), ((a, b) : String × String).2)
          else if pyStartsWith ln "data:" then (((a, b) : String × String).1, ((a, b) : String × String).2 ++ (pyLstrip (afterFirstColon ln) ++ "\n"))
          else ((a, b) : String × String)) = (nameStep a ln, dataStep b ln) := by
      unfold nameStep dataStep
      split_ifs <;> rfl
    rw [hstep]
    exact ih (nameStep a ln) (dataStep b ln)

/-- The name fold computes the declarative last-event-line value. -/
theorem foldl_nameStep_eq (buf : List String) :
    ∀ cur, buf.foldl nameStep cur =
      (match buf.reverse.find? isEventLine with
        | some ln => pyStrip (afterFirstColon ln)
        | none => cur) := by
  induction buf with
  | nil => intro cur; rfl
  | cons ln rest ih =>
    intro cur
    simp only [List.foldl_cons, List.reverse_cons, List.find?_append]
    rw [ih (nameStep cur ln)]
    cases hfind : rest.reverse.find? isEventLine with
    | some x => simp [hfind]
    | none =>
      simp only [hfind, Option.none_or]
      unfold nameStep isEventLine
      cases hev : pyStartsWith ln "event:" with
      | true => simp [List.find?_cons, hev]
      | false => simp [List.find?_cons, hev]

/-- Concatenation of the extracted data parts, each followed by a
newline (the shape the fold produces). -/
def concatNL : List String → String
  | [] => ""
  | p :: ps => (p ++ "\n") ++ concatNL ps

/-- Unfolding equation for `concatNL` on a cons. -/
theorem concatNL_cons (p : String) (ps : List String) :
    concatNL (p :: ps) = (p ++ "\n") ++ concatNL ps := rfl

/-- The data fold appends the newline-terminated data parts of the
buffer's data lines. -/
theorem foldl_dataStep_eq (buf : List String) :
    ∀ cur, buf.foldl dataStep cur = cur ++ concatNL ((buf.filter isDataLine).map dataPartOf) := by
  induction buf with
  | nil => intro cur; simp [concatNL, String.append_empty]
  | cons ln rest ih =>
    intro cur
    simp only [List.foldl_cons]
    cases hev : pyStartsWith ln "event:" with
    | true =>
      have hnd : isDataLine ln = false := event_line_not_data ln hev
      rw [show dataStep cur ln = cur by unfold dataStep; rw [hev]; simp]
      simp only [List.filter_cons, hnd, Bool.false_eq_true, if_false]
      exact ih cur
    | false =>
      cases hda : pyStartsWith ln "data:" with
      | true =>
        rw [show dataStep cur ln = cur ++ (dataPartOf ln ++ "\n") by
          unfold dataStep dataPartOf; rw [hev, hda]; simp]
        have : isDataLine ln = true := hda
        simp only [List.filter_cons, this, if_true, List.map_cons]
        rw [ih (cur ++ (dataPartOf ln ++ "\n")), concatNL_cons, String.append_assoc]
      | false =>
        rw [show dataStep cur ln = cur by unfold dataStep; rw [hev, hda]; simp]
        have : isDataLine ln = false := hda
        simp only [List.filter_cons, this, Bool.false_eq_true, if_false]
        exact ih cur

/-- `concatNL` is `joinNL` plus one trailing newline (on non-empty
lists). -/
theorem concatNL_eq_joinNL (parts : List String) (h : parts ≠ []) :
    concatNL parts = joinNL parts ++ "\n" := by
  induction parts with
  | nil => exact absurd rfl h
  | cons p ps ih =>
    cases ps with
    | nil => simp [concatNL, joinNL, String.append_empty]
    | cons q qs =>
      rw [concatNL_cons, ih (by simp),
        show joinNL (p :: q :: qs) = p ++ "\n" ++ joinNL (q :: qs) from rfl]
      simp only [String.append_assoc]

/-- Stripping ignores a trailing newline. -/
theorem pyStrip_append_newline (s : String) : pyStrip (s ++ "\n") = pyStrip s := by
  unfold pyStrip pyStripL
  have hdata : (s ++ "\n").data = s.data ++ ['\n'] := by
    rw [String.data_append]
  rw [hdata]
  have hnl : isPyWs '\n' = true := by decide
  simp [List.reverse_append, List.dropWhile_cons, hnl]

/-- C3 (amended). The assembler behaves declaratively as: the record name
is the stripped value of the last `event:` line (default `"message"`); the
payload is the newline-join of the fully-lstripped `data:` line remainders,
stripped; and a record whose payload strips to empty produces no step at
all (no state change, no downstream event). -/
theorem C3_amended_assembler (buf : List String) :
    (assembleND buf).1 = specName buf ∧
    pyStrip (assembleND buf).2 = specData buf ∧
    (∀ (st : Sess) (pr : PostResult), pyStrip (assembleND buf).2 = "" →
      st.sent_done = false → flush_and_emit st buf pr = ⟨st, [], false⟩) := by
  refine ⟨?_, ?_, ?_⟩
  · rw [assembleND_eq_folds]
    exact foldl_nameStep_eq buf "message"
  · rw [assembleND_eq_folds]
    simp only
    rw [foldl_dataStep_eq buf "", String.empty_append]
    unfold specData
    cases hparts : (buf.filter isDataLine).map dataPartOf with
    | nil => rfl
    | cons p ps =>
      rw [concatNL_eq_joinNL (p :: ps) (by simp), pyStrip_append_newline]
  · intro st pr hdat hsent
    unfold flush_and_emit
    cases hb : buf.isEmpty with
    | true => simp [hb]
    | false => simp [hb, hsent, hdat]

/-- Witness for C3 (amended) at a concrete buffer (name from the last
`event:` line, payload newline-joined and lstripped), plus the no-op on an
all-whitespace payload. -/
theorem C3_amended_assembler_witness :
    (assembleND ["event: a", "data: x", "event: endpoint", "data:   y"]).1 = "endpoint" ∧
    pyStrip (assembleND ["event: a", "data: x", "event: endpoint", "data:   y"]).2 = "x\ny" ∧
    flush_and_emit initSess ["data:", "data:  "] .ok = ⟨initSess, [], false⟩ := by
  have h1 := C3_amended_assembler ["event: a", "data: x", "event: endpoint", "data:   y"]
  have h2 := C3_amended_assembler ["data:", "data:  "]
  exact ⟨by rw [h1.1]; decide, by rw [h1.2.1]; decide,
    h2.2.2 initSess .ok (by decide) rfl⟩

/-! ## Anatomy of one `flush_and_emit` step (towards C1 and C5) -/

/-- Every reachable outcome of `flushCore` on a live session, enumerated:
(1) an inert step (state unchanged; no effect or one `log`);
(2) the URL short-circuit (`done` with dumped URL, sentinel, DONE);
(3) a handshake that posts nothing (state update only);
(4) a successful trigger post (sets `called`, emits the started log);
(5) a failed trigger post (emits `error` then `done`, DONE);
(6) token exhaustion (`error` then `done`, DONE). -/
theorem flushCore_cases (st : Sess) (name data : String) (pr : PostResult)
    (h : st.sent_done = false) :
    ((flushCore st name data pr).st = st ∧
      ((flushCore st name data pr).effs = [] ∨
        ∃ m, (flushCore st name data pr).effs = [.emit (.log m)])) ∨
    (∃ url, flushCore st name data pr =
      ⟨{ st with sent_done := true },
        [.emit (.done (jsonDumpsDownload url)), .emit .eofComment], false⟩) ∨
    (∃ ep c2, flushCore st name data pr =
      ⟨{ st with endpoint_url := ep, context := c2 }, [], false⟩) ∨
    (st.called = false ∧ name = "endpoint" ∧
      ∃ url c2 ctx, _endpoint_and_context_from_data data = .ok (some url, ctx) ∧
        flushCore st name data pr =
          ⟨{ st with endpoint_url := some url, context := c2, called := true },
            [.post url, .emit (.log startedLogMsg)], false⟩) ∨
    (st.called = false ∧ name = "endpoint" ∧
      ∃ url c2 ctx m, _endpoint_and_context_from_data data = .ok (some url, ctx) ∧
        flushCore st name data pr =
          ⟨{ st with endpoint_url := some url, context := c2, sent_done := true },
            [.post url, .emit (.error m), .emit (.done doneMark)], false⟩) ∨
    (flushCore st name data pr =
      ⟨{ st with sent_done := true },
        [.emit (.error "Token exhausted"), .emit (.done doneMark)], false⟩) := by
  unfold flushCore
  cases hp : _pick_best_url (_collect_urls_from_text data) with
  | some bl =>
    exact Or.inr (Or.inl ⟨pyReplace bl escU0026 "&", rfl⟩)
  | none =>
    unfold flushTail
    dsimp only
    by_cases hping : isPingObj (json_loads data) = true
    · rw [if_pos hping]
      exact Or.inl ⟨rfl, Or.inr ⟨"...", rfl⟩⟩
    · rw [if_neg hping]
      by_cases hname : name = "endpoint"
      · rw [if_pos hname]
        unfold endpointBranch
        cases hep : _endpoint_and_context_from_data data with
        | error e => exact Or.inl ⟨rfl, Or.inl rfl⟩
        | ok pair =>
          obtain ⟨ep, ctx⟩ := pair
          dsimp only
          cases ep with
          | none =>
            exact Or.inr (Or.inr (Or.inl ⟨none, _, rfl⟩))
          | some url =>
            dsimp only
            by_cases hc : st.called = true
            · rw [if_pos hc]
              exact Or.inr (Or.inr (Or.inl ⟨some url, _, rfl⟩))
            · have hcf : st.called = false := by
                cases hcb : st.called with
                | true => exact absurd hcb hc
                | false => rfl
              rw [if_neg hc]
              cases pr with
              | ok =>
                exact Or.inr (Or.inr (Or.inr (Or.inl ⟨hcf, hname, url, _, ctx, rfl, rfl⟩)))
              | fail m =>
                rw [if_neg (show ¬st.sent_done = true by rw [h]; simp)]
                exact Or.inr (Or.inr (Or.inr (Or.inr
                  (Or.inl ⟨hcf, hname, url, _, ctx, "tools/call failed: " ++ m, rfl, rfl⟩))))
      · rw [if_neg hname]
        by_cases htok : pyIn "token exhausted" (asciiLower data) = true
        · rw [if_pos htok, if_neg (show ¬st.sent_done = true by rw [h]; simp)]
          exact Or.inr (Or.inr (Or.inr (Or.inr (Or.inr rfl))))
        · rw [if_neg htok]
          unfold logBranch
          cases hlm : logMsgExtract (json_loads data) with
          | error e => exact Or.inl ⟨rfl, Or.inl rfl⟩
          | ok lm0 =>
            dsimp only
            cases hsel : (if !optTruthy lm0 && !pyStartsWith data lbraceStr && data.length < 200 then
                some (Json.str data) else lm0) with
            | none => exact Or.inl ⟨rfl, Or.inl rfl⟩
            | some j =>
              dsimp only
              by_cases hj : jsonTruthy j = true
              · rw [if_pos hj]
                exact Or.inl ⟨rfl, Or.inr ⟨pyStr j, rfl⟩⟩
              · rw [if_neg hj]
                exact Or.inl ⟨rfl, Or.inl rfl⟩

/-- `flush_and_emit` on a live session either does nothing (empty buffer
or empty payload) or runs `flushCore` on the assembled record. -/
theorem flush_eq_noop_or_core (st : Sess) (buf : List String) (pr : PostResult)
    (h : st.sent_done = false) :
    flush_and_emit st buf pr = ⟨st, [], false⟩ ∨
    flush_and_emit st buf pr =
      flushCore st (assembleND buf).1 (pyStrip (assembleND buf).2) pr := by
  unfold flush_and_emit
  rw [h]
  by_cases hb : buf.isEmpty
  · left; simp [hb]
  · by_cases hd : pyStrip (assembleND buf).2 = ""
    · left; simp [hb, hd]
    · right; simp [hb, hd]

/-- One step emits a `done` event exactly when it newly terminates the
session. -/
theorem flush_done_count (st : Sess) (buf : List String) (pr : PostResult)
    (h : st.sent_done = false) :
    (flush_and_emit st buf pr).effs.countP isDoneEff =
      (if (flush_and_emit st buf pr).st.sent_done then 1 else 0) := by
  rcases flush_eq_noop_or_core st buf pr h with he | he <;> rw [he]
  · simp [h]
  · rcases flushCore_cases st (assembleND buf).1 (pyStrip (assembleND buf).2) pr h with
      ⟨hst, heff | ⟨m, heff⟩⟩ | ⟨url, hco⟩ | ⟨ep, c2, hco⟩ |
      ⟨_, _, url, c2, ctx, _, hco⟩ | ⟨_, _, url, c2, ctx, m, _, hco⟩ | hco
    · rw [heff, hst, h]; rfl
    · rw [heff, hst, h]; simp [List.countP_cons, isDoneEff]
    · rw [hco]; simp [List.countP_cons, isDoneEff]
    · rw [hco, h]; simp [List.countP_cons, isDoneEff]
    · rw [hco, h]; simp [List.countP_cons, isDoneEff]
    · rw [hco]; simp [List.countP_cons, isDoneEff]
    · rw [hco]; simp [List.countP_cons, isDoneEff]

/-- Every `done` event one step emits is either the URL-carrying JSON
payload or the literal `[DONE]`. -/
theorem flush_done_shape (st : Sess) (buf : List String) (pr : PostResult) :
    ∀ eff ∈ (flush_and_emit st buf pr).effs, isDoneEff eff = true →
      (∃ url, eff = .emit (.done (jsonDumpsDownload url))) ∨ eff = .emit (.done doneMark) := by
  by_cases h : st.sent_done = true
  · rw [flush_sent_noop st buf pr h]; intro eff he; exact absurd he (by simp)
  · have h' : st.sent_done = false := by
      cases hb : st.sent_done with
      | true => exact absurd hb h
      | false => rfl
    rcases flush_eq_noop_or_core st buf pr h' with he | he <;> rw [he]
    · intro eff hm; exact absurd hm (by simp)
    · rcases flushCore_cases st (assembleND buf).1 (pyStrip (assembleND buf).2) pr h' with
        ⟨hst, heff | ⟨m, heff⟩⟩ | ⟨url, hco⟩ | ⟨ep, c2, hco⟩ |
        ⟨_, _, url, c2, ctx, _, hco⟩ | ⟨_, _, url, c2, ctx, m, _, hco⟩ | hco
      · rw [heff]; intro eff hm; exact absurd hm (by simp)
      · rw [heff]; intro eff hm hd
        rw [List.mem_singleton] at hm
        rw [hm] at hd
        exact absurd hd (by simp [isDoneEff])
      · rw [hco]; intro eff hm hd
        simp only [List.mem_cons, List.mem_singleton, List.not_mem_nil, or_false] at hm
        rcases hm with hm | hm
        · exact Or.inl ⟨url, hm⟩
        · rw [hm] at hd; exact absurd hd (by simp [isDoneEff])
      · rw [hco]; intro eff hm; exact absurd hm (by simp)
      · rw [hco]; intro eff hm hd
        simp only [List.mem_cons, List.not_mem_nil, or_false] at hm
        rcases hm with hm | hm <;> rw [hm] at hd <;> exact absurd hd (by simp [isDoneEff])
      · rw [hco]; intro eff hm hd
        simp only [List.mem_cons, List.not_mem_nil, or_false] at hm
        rcases hm with hm | hm | hm
        · rw [hm] at hd; exact absurd hd (by simp [isDoneEff])
        · rw [hm] at hd; exact absurd hd (by simp [isDoneEff])
        · exact Or.inr hm
      · rw [hco]; intro eff hm hd
        simp only [List.mem_cons, List.not_mem_nil, or_false] at hm
        rcases hm with hm | hm
        · rw [hm] at hd; exact absurd hd (by simp [isDoneEff])
        · exact Or.inr hm

/-- The trigger flag is monotone across one step: once set it stays
set. -/
theorem flush_called_mono (st : Sess) (buf : List String) (pr : PostResult)
    (h : st.called = true) : (flush_and_emit st buf pr).st.called = true := by
  by_cases hs : st.sent_done = true
  · rw [flush_sent_noop st buf pr hs]; exact h
  · have h' : st.sent_done = false := by
      cases hb : st.sent_done with
      | true => exact absurd hb hs
      | false => rfl
    rcases flush_eq_noop_or_core st buf pr h' with he | he <;> rw [he]
    · exact h
    · rcases flushCore_cases st (assembleND buf).1 (pyStrip (assembleND buf).2) pr h' with
        ⟨hst, _⟩ | ⟨url, hco⟩ | ⟨ep, c2, hco⟩ |
        ⟨hcf, _, url, c2, ctx, _, hco⟩ | ⟨hcf, _, url, c2, ctx, m, _, hco⟩ | hco
      · rw [hst]; exact h
      · rw [hco]; exact h
      · rw [hco]; exact h
      · rw [h] at hcf; exact Bool.noConfusion hcf
      · rw [h] at hcf; exact Bool.noConfusion hcf
      · rw [hco]; exact h

/-- Termination is monotone across one step. -/
theorem flush_sent_mono (st : Sess) (buf : List String) (pr : PostResult)
    (h : st.sent_done = true) : (flush_and_emit st buf pr).st.sent_done = true := by
  rw [flush_sent_noop st buf pr h]; exact h

/-- Post-attempt accounting for one step: at most one attempt; none when
the flag is already set; and an attempt leaves the session with the flag
set or terminated. -/
theorem flush_post_count (st : Sess) (buf : List String) (pr : PostResult)
    (h : st.sent_done = false) :
    (flush_and_emit st buf pr).effs.countP isPostEff ≤ 1 ∧
    (st.called = true → (flush_and_emit st buf pr).effs.countP isPostEff = 0) ∧
    (1 ≤ (flush_and_emit st buf pr).effs.countP isPostEff →
      (flush_and_emit st buf pr).st.called = true ∨ (flush_and_emit st buf pr).st.sent_done = true) := by
  rcases flush_eq_noop_or_core st buf pr h with he | he <;> rw [he]
  · simp
  · rcases flushCore_cases st (assembleND buf).1 (pyStrip (assembleND buf).2) pr h with
      ⟨hst, heff | ⟨m, heff⟩⟩ | ⟨url, hco⟩ | ⟨ep, c2, hco⟩ |
      ⟨hcf, _, url, c2, ctx, _, hco⟩ | ⟨hcf, _, url, c2, ctx, m, _, hco⟩ | hco
    · rw [heff]; simp
    · rw [heff]; simp [List.countP_cons, isPostEff]
    · rw [hco]; simp [List.countP_cons, isPostEff]
    · rw [hco]; simp [List.countP_cons, isPostEff]
    · rw [hco]
      refine ⟨by simp [List.countP_cons, isPostEff], fun hc => ?_, fun _ => Or.inl rfl⟩
      rw [hc] at hcf; exact Bool.noConfusion hcf
    · rw [hco]
      refine ⟨by simp [List.countP_cons, isPostEff], fun hc => ?_, fun _ => Or.inr rfl⟩
      rw [hc] at hcf; exact Bool.noConfusion hcf
    · rw [hco]; simp [List.countP_cons, isPostEff]

/-- Provenance of a post attempt: it can only happen while the flag is
clear, on an `endpoint`-named record whose payload resolves to exactly the
posted URL. -/
theorem flush_post_origin (st : Sess) (buf : List String) (pr : PostResult) (url : String)
    (hm : Effect.post url ∈ (flush_and_emit st buf pr).effs) :
    st.called = false ∧ st.sent_done = false ∧ (assembleND buf).1 = "endpoint" ∧
    ∃ ctx, _endpoint_and_context_from_data (pyStrip (assembleND buf).2) = .ok (some url, ctx) := by
  by_cases hs : st.sent_done = true
  · rw [flush_sent_noop st buf pr hs] at hm; exact absurd hm (by simp)
  · have h' : st.sent_done = false := by
      cases hb : st.sent_done with
      | true => exact absurd hb hs
      | false => rfl
    rcases flush_eq_noop_or_core st buf pr h' with he | he <;> rw [he] at hm
    · exact absurd hm (by simp)
    · rcases flushCore_cases st (assembleND buf).1 (pyStrip (assembleND buf).2) pr h' with
        ⟨hst, heff | ⟨m, heff⟩⟩ | ⟨u2, hco⟩ | ⟨ep, c2, hco⟩ |
        ⟨hcf, hnm, u2, c2, ctx, hep, hco⟩ | ⟨hcf, hnm, u2, c2, ctx, m, hep, hco⟩ | hco
      · rw [heff] at hm; exact absurd hm (by simp)
      · rw [heff] at hm
        rw [List.mem_singleton] at hm
        exact absurd hm (by simp)
      · rw [hco] at hm
        simp only [List.mem_cons, List.not_mem_nil, or_false] at hm
        rcases hm with hm | hm <;> exact absurd hm (by simp)
      · rw [hco] at hm; exact absurd hm (by simp)
      · rw [hco] at hm
        simp only [List.mem_cons, List.not_mem_nil, or_false] at hm
        rcases hm with hm | hm
        · exact ⟨hcf, h', hnm, ctx, by rw [show url = u2 from by injection hm]; exact hep⟩
        · exact absurd hm (by simp)
      · rw [hco] at hm
        simp only [List.mem_cons, List.not_mem_nil, or_false] at hm
        rcases hm with hm | hm | hm
        · exact ⟨hcf, h', hnm, ctx, by rw [show url = u2 from by injection hm]; exact hep⟩
        · exact absurd hm (by simp)
        · exact absurd hm (by simp)
      · rw [hco] at hm
        simp only [List.mem_cons, List.not_mem_nil, or_false] at hm
        rcases hm with hm | hm <;> exact absurd hm (by simp)

/-- The read loop emits exactly one `done` event when entered live, and
none when entered on an already-terminated session. -/
theorem runLoop_done_count (items : List (List Nat × PostResult)) :
    ∀ (st : Sess) (buffer : List String) (endR : Option String),
      (st.sent_done = false → ((runLoop st buffer endR items).2.countP isDoneEff) = 1) ∧
      (st.sent_done = true → ((runLoop st buffer endR items).2.countP isDoneEff) = 0) := by
  induction items with
  | nil =>
    intro st buffer endR
    cases endR with
    | none =>
      constructor <;> intro h <;> simp [runLoop, h, List.countP_cons, isDoneEff]
    | some m =>
      constructor <;> intro h <;>
        simp [runLoop, h, List.countP_append, List.countP_cons, isDoneEff]
  | cons item rest ih =>
    obtain ⟨bs, pr⟩ := item
    intro st buffer endR
    constructor
    · intro h
      simp only [runLoop]
      rw [if_neg (show ¬st.sent_done = true by rw [h]; simp)]
      by_cases hbs : bs.isEmpty
      · rw [if_neg (show ¬(!bs.isEmpty) = true by rw [hbs]; simp)]
        by_cases hexc : (flush_and_emit st buffer pr).exc
        · rw [if_pos hexc]
          dsimp only
          rw [List.countP_append, List.countP_append, flush_done_count st buffer pr h]
          by_cases hsd : (flush_and_emit st buffer pr).st.sent_done = true
          · rw [if_pos hsd, if_pos hsd]
            simp [List.countP_cons, isDoneEff]
          · rw [if_neg hsd, if_neg hsd]
            simp [List.countP_cons, isDoneEff]
        · rw [if_neg hexc]
          dsimp only
          rw [List.countP_append, flush_done_count st buffer pr h]
          by_cases hsd : (flush_and_emit st buffer pr).st.sent_done = true
          · rw [if_pos hsd, (ih (flush_and_emit st buffer pr).st [] endR).2 hsd]
          · rw [if_neg hsd]
            have hsd' : (flush_and_emit st buffer pr).st.sent_done = false := by
              cases hb : (flush_and_emit st buffer pr).st.sent_done with
              | true => exact absurd hb hsd
              | false => rfl
            rw [(ih (flush_and_emit st buffer pr).st [] endR).1 hsd']
      · rw [if_pos (show (!bs.isEmpty) = true by
          cases hb : bs.isEmpty with
          | true => exact absurd hb hbs
          | false => rfl)]
        exact (ih st (buffer ++ [pyStrip (safeDecodeStr bs)]) endR).1 h
    · intro h
      simp only [runLoop]
      rw [if_pos h]
      rfl

/-- Every `done` event the read loop emits is either the URL-carrying
payload or the literal `[DONE]`. -/
theorem runLoop_done_shape (items : List (List Nat × PostResult)) :
    ∀ (st : Sess) (buffer : List String) (endR : Option String),
      ∀ eff ∈ (runLoop st buffer endR items).2, isDoneEff eff = true →
        (∃ url, eff = .emit (.done (jsonDumpsDownload url))) ∨ eff = .emit (.done doneMark) := by
  induction items with
  | nil =>
    intro st buffer endR eff hm hd
    cases endR with
    | none =>
      by_cases h : st.sent_done = true
      · simp only [runLoop, if_pos h] at hm
        exact absurd hm (by simp)
      · simp only [runLoop, if_neg h, List.mem_singleton] at hm
        exact Or.inr hm
    | some m =>
      by_cases h : st.sent_done = true
      · simp only [runLoop, if_pos h, List.append_nil, List.mem_singleton] at hm
        rw [hm] at hd; exact absurd hd (by simp [isDoneEff])
      · simp only [runLoop, if_neg h, List.mem_append, List.mem_singleton] at hm
        rcases hm with hm | hm
        · rw [hm] at hd; exact absurd hd (by simp [isDoneEff])
        · exact Or.inr hm
  | cons item rest ih =>
    obtain ⟨bs, pr⟩ := item
    intro st buffer endR eff hm hd
    simp only [runLoop] at hm
    by_cases hs : st.sent_done = true
    · rw [if_pos hs] at hm; exact absurd hm (by simp)
    · rw [if_neg hs] at hm
      by_cases hbs : bs.isEmpty
      · rw [if_neg (show ¬(!bs.isEmpty) = true by rw [hbs]; simp)] at hm
        by_cases hexc : (flush_and_emit st buffer pr).exc
        · rw [if_pos hexc] at hm
          dsimp only at hm
          simp only [List.mem_append, List.mem_singleton] at hm
          rcases hm with (hm | hm) | hm
          · exact flush_done_shape st buffer pr eff hm hd
          · rw [hm] at hd; exact absurd hd (by simp [isDoneEff])
          · by_cases hsd : (flush_and_emit st buffer pr).st.sent_done = true
            · rw [if_pos hsd] at hm; exact absurd hm (by simp)
            · rw [if_neg hsd, List.mem_singleton] at hm
              exact Or.inr hm
        · rw [if_neg hexc] at hm
          dsimp only at hm
          rw [List.mem_append] at hm
          rcases hm with hm | hm
          · exact flush_done_shape st buffer pr eff hm hd
          · exact ih (flush_and_emit st buffer pr).st [] endR eff hm hd
      · rw [if_pos (show (!bs.isEmpty) = true by
          cases hb : bs.isEmpty with
          | true => exact absurd hb hbs
          | false => rfl)] at hm
        exact ih st (buffer ++ [pyStrip (safeDecodeStr bs)]) endR eff hm hd

/-- The read loop attempts at most one trigger post, and none once the
flag is set or the session terminated. -/
theorem runLoop_post_count (items : List (List Nat × PostResult)) :
    ∀ (st : Sess) (buffer : List String) (endR : Option String),
      ((st.called = true ∨ st.sent_done = true) →
        ((runLoop st buffer endR items).2.countP isPostEff) = 0) ∧
      ((runLoop st buffer endR items).2.countP isPostEff ≤ 1) := by
  induction items with
  | nil =>
    intro st buffer endR
    cases endR with
    | none =>
      constructor
      · intro _
        by_cases h : st.sent_done = true <;>
          simp [runLoop, h, List.countP_cons, isPostEff]
      · by_cases h : st.sent_done = true <;>
          simp [runLoop, h, List.countP_cons, isPostEff]
    | some m =>
      constructor
      · intro _
        by_cases h : st.sent_done = true <;>
          simp [runLoop, h, List.countP_append, List.countP_cons, isPostEff]
      · by_cases h : st.sent_done = true <;>
          simp [runLoop, h, List.countP_append, List.countP_cons, isPostEff]
  | cons item rest ih =>
    obtain ⟨bs, pr⟩ := item
    intro st buffer endR
    by_cases hs : st.sent_done = true
    · constructor <;> (intros; simp only [runLoop]; rw [if_pos hs]; simp)
    · have hs' : st.sent_done = false := by
        cases hb : st.sent_done with
        | true => exact absurd hb hs
        | false => rfl
      by_cases hbs : bs.isEmpty
      · have hset : ∀ l : List Effect,
            (l ++ [Effect.emit (Ev.error internalExcMsg)] ++
              (if (flush_and_emit st buffer pr).st.sent_done = true then []
                else [Effect.emit (Ev.done doneMark)])).countP isPostEff =
              l.countP isPostEff := by
          intro l
          by_cases hsd : (flush_and_emit st buffer pr).st.sent_done = true <;>
            simp [hsd, List.countP_append, List.countP_cons, isPostEff]
        constructor
        · intro hdead
          have hcall : st.called = true := by
            rcases hdead with hd | hd
            · exact hd
            · exact absurd hd hs
          simp only [runLoop]
          rw [if_neg hs, if_neg (show ¬(!bs.isEmpty) = true by rw [hbs]; simp)]
          by_cases hexc : (flush_and_emit st buffer pr).exc
          · rw [if_pos hexc]
            dsimp only
            rw [hset, (flush_post_count st buffer pr hs').2.1 hcall]
          · rw [if_neg hexc]
            dsimp only
            rw [List.countP_append, (flush_post_count st buffer pr hs').2.1 hcall,
              (ih (flush_and_emit st buffer pr).st [] endR).1
                (Or.inl (flush_called_mono st buffer pr hcall))]
        · simp only [runLoop]
          rw [if_neg hs, if_neg (show ¬(!bs.isEmpty) = true by rw [hbs]; simp)]
          by_cases hexc : (flush_and_emit st buffer pr).exc
          · rw [if_pos hexc]
            dsimp only
            rw [hset]
            exact (flush_post_count st buffer pr hs').1
          · rw [if_neg hexc]
            dsimp only
            rw [List.countP_append]
            by_cases hone : 1 ≤ (flush_and_emit st buffer pr).effs.countP isPostEff
            · have hdead := (flush_post_count st buffer pr hs').2.2 hone
              rw [(ih (flush_and_emit st buffer pr).st [] endR).1 hdead]
              have := (flush_post_count st buffer pr hs').1
              omega
            · have hz : (flush_and_emit st buffer pr).effs.countP isPostEff = 0 := by omega
              rw [hz]
              have := (ih (flush_and_emit st buffer pr).st [] endR).2
              omega
      · constructor
        · intro hdead
          simp only [runLoop]
          rw [if_neg hs, if_pos (show (!bs.isEmpty) = true by
            cases hb : bs.isEmpty with
            | true => exact absurd hb hbs
            | false => rfl)]
          exact (ih st (buffer ++ [pyStrip (safeDecodeStr bs)]) endR).1 hdead
        · simp only [runLoop]
          rw [if_neg hs, if_pos (show (!bs.isEmpty) = true by
            cases hb : bs.isEmpty with
            | true => exact absurd hb hbs
            | false => rfl)]
          exact (ih st (buffer ++ [pyStrip (safeDecodeStr bs)]) endR).2

/-- `isDoneEff` on an emission agrees with `isDoneEv` on the event. -/
theorem isDoneEff_emit (ev : Ev) : isDoneEff (.emit ev) = isDoneEv ev := by
  cases ev <;> rfl

/-- Counting `done` events downstream equals counting `done` emissions
among the effects. -/
theorem countP_doneEv_filterMap (l : List Effect) :
    (l.filterMap (fun e => match e with | .emit ev => some ev | .post _ => none)).countP isDoneEv =
      l.countP isDoneEff := by
  induction l with
  | nil => rfl
  | cons e t ih =>
    cases e with
    | emit ev =>
      simp only [List.filterMap_cons, List.countP_cons, ih, isDoneEff_emit]
    | post u =>
      simp only [List.filterMap_cons, List.countP_cons, ih]
      simp [isDoneEff]

/-- C1. In every session — whatever the upstream bytes, including a clean
close with no URL, a non-200 response, and a transport that raises —
exactly one `done` event reaches the downstream stream; and every `done`
event is either the URL-carrying JSON payload (URL short-circuit) or the
literal `[DONE]`, so a session that never found a download URL terminates
with payload `[DONE]`. -/
theorem C1_exactly_one_done (u : Upstream) :
    (emittedEvents u).countP isDoneEv = 1 ∧
    ∀ ev ∈ emittedEvents u, isDoneEv ev = true →
      (∃ url, ev = Ev.done (jsonDumpsDownload url)) ∨ ev = Ev.done doneMark := by
  constructor
  · cases u with
    | connectFail m => simp [emittedEvents, event_stream, List.countP_cons, isDoneEv]
    | badStatus t => simp [emittedEvents, event_stream, List.countP_cons, isDoneEv]
    | stream items endR =>
      unfold emittedEvents event_stream
      rw [countP_doneEv_filterMap]
      exact (runLoop_done_count items initSess [] endR).1 rfl
  · intro ev hm hd
    cases u with
    | connectFail m =>
      simp only [emittedEvents, event_stream, List.filterMap_cons, List.filterMap_nil,
        List.mem_cons, List.mem_singleton, List.not_mem_nil, or_false] at hm
      rcases hm with hm | hm
      · rw [hm] at hd; exact absurd hd (by simp [isDoneEv])
      · exact Or.inr hm
    | badStatus t =>
      simp only [emittedEvents, event_stream, List.filterMap_cons, List.filterMap_nil,
        List.mem_cons, List.mem_singleton, List.not_mem_nil, or_false] at hm
      rcases hm with hm | hm
      · rw [hm] at hd; exact absurd hd (by simp [isDoneEv])
      · exact Or.inr hm
    | stream items endR =>
      unfold emittedEvents event_stream at hm
      rw [List.mem_filterMap] at hm
      obtain ⟨eff, heff, hfe⟩ := hm
      cases eff with
      | post u2 => exact absurd hfe (by simp)
      | emit ev2 =>
        simp only [Option.some.injEq] at hfe
        rcases runLoop_done_shape items initSess [] endR (.emit ev2) heff
            (by rw [isDoneEff_emit, hfe]; exact hd) with ⟨url, hs⟩ | hs
        · refine Or.inl ⟨url, ?_⟩
          rw [← hfe]
          injection hs with h2
        · refine Or.inr ?_
          rw [← hfe]
          injection hs with h2

/-- Witness for C1 on a concrete session: a clean close with no URL
yields one `done`, and that `done` carries the `[DONE]` payload. -/
theorem C1_exactly_one_done_witness :
    (emittedEvents (Upstream.stream [] none)).countP isDoneEv = 1 ∧
    ((∃ url, Ev.done doneMark = Ev.done (jsonDumpsDownload url)) ∨
      Ev.done doneMark = Ev.done doneMark) :=
  ⟨(C1_exactly_one_done (Upstream.stream [] none)).1,
    (C1_exactly_one_done (Upstream.stream [] none)).2 (Ev.done doneMark) (by decide) (by decide)⟩

/-- C5. The trigger call is attempted at most once per session; the
`called` flag, once true, stays true across every step (so it flips
false→true at most once); and an attempt can only happen while the flag is
still clear, on an `endpoint`-named record whose payload resolved to the
posted endpoint URL. -/
theorem C5_trigger_at_most_once :
    (∀ u : Upstream, (event_stream u).countP isPostEff ≤ 1) ∧
    (∀ (st : Sess) (buf : List String) (pr : PostResult),
      st.called = true → (flush_and_emit st buf pr).st.called = true) ∧
    (∀ (st : Sess) (buf : List String) (pr : PostResult) (url : String),
      Effect.post url ∈ (flush_and_emit st buf pr).effs →
        st.called = false ∧ st.sent_done = false ∧ (assembleND buf).1 = "endpoint" ∧
        ∃ ctx, _endpoint_and_context_from_data (pyStrip (assembleND buf).2) =
          Except.ok (some url, ctx)) := by
  refine ⟨fun u => ?_, flush_called_mono, flush_post_origin⟩
  cases u with
  | connectFail m => simp [event_stream, List.countP_cons, isPostEff]
  | badStatus t => simp [event_stream, List.countP_cons, isPostEff]
  | stream items endR =>
    unfold event_stream
    exact (runLoop_post_count items initSess [] endR).2

/-- Witness for C5: flag monotonicity at a concrete state, and provenance
of the concrete post to the resolved `/a` endpoint. -/
theorem C5_trigger_at_most_once_witness :
    (flush_and_emit ⟨none, true, [], false⟩ ["data: hello"] .ok).st.called = true ∧
    (Sess.called initSess = false ∧ Sess.sent_done initSess = false ∧
      (assembleND ["event: endpoint", "data: /a"]).1 = "endpoint" ∧
      ∃ ctx, _endpoint_and_context_from_data
          (pyStrip (assembleND ["event: endpoint", "data: /a"]).2) =
        Except.ok (some "https://api.skywork.ai/a", ctx)) :=
  ⟨C5_trigger_at_most_once.2.1 ⟨none, true, [], false⟩ ["data: hello"] .ok rfl,
    C5_trigger_at_most_once.2.2 initSess ["event: endpoint", "data: /a"] .ok
      "https://api.skywork.ai/a" (by decide)⟩
